import Mathlib

/-!
Shallow embedding of `src/telegram_upload/client/telegram_forward_client.py`.

The whole sync engine is the method `forward_messages_from_chat` of
`TelegramForwardClient` together with its helpers (`_load_forwarded_ids`,
`_save_forwarded_ids`, `_load_timestamps`, `_save_timestamps`,
`_resolve_entity_with_flood_wait`, `_get_or_create_topic_id`).  Remote
interactions are modelled by an explicit environment: the results of entity
resolution, the listed source history, the result of topic resolution, and a
per-message send outcome (a finite run of flood waits ending in success or in a
non-flood exception).  A run is then a pure function from that environment and
the persisted state (forwarded-id log, timestamp map) to an observable result:
the returned count, the trace of remote effects (sleeps and sends), the final
in-memory forwarded set, the lines appended to the log file, and the timestamp
map written by `_save_timestamps` (`none` when the file is never written).
-/

namespace TelegramForward

/-- Document attribute tags mirroring the telethon `DocumentAttribute` classes
the source inspects: `DocumentAttributeFilename`, `DocumentAttributeSticker`,
`DocumentAttributeAnimated`, `DocumentAttributeAudio`,
`DocumentAttributeImageSize`, and any other attribute. -/
inductive DocAttr
| filename (name : String)
| sticker
| animated
| audio
| imageSize
| otherAttr
deriving DecidableEq

/-- Message media, split the way the source splits it: a web-page preview
(`MessageMediaWebPage`, line 194), a document carrying its attribute list
(giving the telethon `msg.document` accessor), or any other media. -/
inductive Media
| webPage
| doc (attrs : List DocAttr)
| otherMedia
deriving DecidableEq

/-- A source message as the code observes it: `msg.id`, whether `msg.action`
is set (a service message, line 145), `msg.media`, `msg.text` (the empty
string models a falsy text, line 201), and `msg.edit_date.timestamp()`
(line 168), timestamps modelled as naturals since only their order is used. -/
structure Message where
  id : Nat
  isService : Bool
  media : Option Media
  text : String
  editDate : Option Nat
deriving DecidableEq

/-- The telethon `msg.document` accessor used on line 149: the document of a
`MessageMediaDocument`, otherwise `none`. -/
def Message.document (m : Message) : Option (List DocAttr) :=
  match m.media with
  | some (Media.doc attrs) => some attrs
  | _ => none

/-- A resolved chat entity: its `id` plus the optional `title` and `username`
attributes read via `getattr` on lines 125 and 139. -/
structure Entity where
  id : Nat
  title : Option String
  username : Option String
deriving DecidableEq

/-- Python `str.strip()` on the character-list view of a string: drop leading
and trailing whitespace. -/
def stripStr (s : String) : String :=
  String.mk (((s.data.dropWhile Char.isWhitespace).reverse.dropWhile
    Char.isWhitespace).reverse)

/-- Mirrors `_load_forwarded_ids` (lines 24-29): a missing log file yields the
empty set, otherwise the set of stripped, nonempty lines.  The backing store is
`Option (List String)`; `none` models a missing file. -/
def load_forwarded_ids : Option (List String) → List String
  | none => []
  | some lines => (lines.map stripStr).filter (fun l => decide (l ≠ ""))

/-- Mirrors `_load_timestamps` (lines 84-93): `none` models a missing file
(return `{}` silently), `some none` an existing but undecodable file (echo the
decode warning, return `{}`), `some (some ts)` a decodable map.  The boolean is
`true` exactly when the decode-failure warning is echoed. -/
def load_timestamps : Option (Option (List (Nat × Nat))) → List (Nat × Nat) × Bool
  | none => ([], false)
  | some none => ([], true)
  | some (some ts) => (ts, false)

/-- `all_timestamps.get(str(chat_id), 0.0)` (line 118) on the association-list
model of the JSON object. -/
def lookupTs : List (Nat × Nat) → Nat → Nat
  | [], _ => 0
  | (k, v) :: rest, key => if k = key then v else lookupTs rest key

/-- `all_timestamps[str(chat_id)] = t` (lines 179 and 226) on the
association-list model of the JSON object. -/
def setTs : List (Nat × Nat) → Nat → Nat → List (Nat × Nat)
  | [], key, t => [(key, t)]
  | (k, v) :: rest, key, t =>
    if k = key then (key, t) :: rest else (k, v) :: setTs rest key t

/-- The ledger token `f"{chat_id}:{msg_id}"` (lines 163 and 208). -/
def uniqueId (chatId msgId : Nat) : String :=
  toString chatId ++ ":" ++ toString msgId

/-- `isinstance(attr, DocumentAttributeSticker)`. -/
def isStickerAttr : DocAttr → Bool
  | DocAttr.sticker => true
  | _ => false

/-- `isinstance(attr, DocumentAttributeAnimated)`. -/
def isAnimatedAttr : DocAttr → Bool
  | DocAttr.animated => true
  | _ => false

/-- `isinstance(attr, DocumentAttributeAudio)`. -/
def isAudioAttr : DocAttr → Bool
  | DocAttr.audio => true
  | _ => false

/-- `isinstance(attr, DocumentAttributeImageSize)`. -/
def isImageSizeAttr : DocAttr → Bool
  | DocAttr.imageSize => true
  | _ => false

/-- The `files_only` list-comprehension predicate (lines 148-154): the message
has a document and none of its attributes is a sticker, animated, audio or
image-size tag. -/
def filesOnlyKeep (m : Message) : Bool :=
  match m.document with
  | none => false
  | some attrs =>
    !(attrs.any isStickerAttr) && !(attrs.any isAnimatedAttr) &&
      !(attrs.any isAudioAttr) && !(attrs.any isImageSizeAttr)

/-- Lines 145-154: drop service-action messages, then apply the `files_only`
filter when requested. -/
def filterHistory (filesOnly : Bool) (history : List Message) : List Message :=
  let nonService := history.filter (fun m => !m.isService)
  if filesOnly then nonService.filter filesOnlyKeep else nonService

/-- The per-message test of the planning loop (lines 162-172): include the
message when its unique id is not yet in `forwarded_ids`, or when it is but the
message carries an edit date strictly newer than the last run timestamp. -/
def shouldInclude (srcId : Nat) (forwarded : List String) (lastRun : Nat)
    (m : Message) : Bool :=
  if uniqueId srcId m.id ∈ forwarded then
    match m.editDate with
    | some e => decide (lastRun < e)
    | none => false
  else true

/-- `processed_count` (lines 161-172): the messages skipped as already
processed and unchanged. -/
def skippedCount (srcId : Nat) (forwarded : List String) (lastRun : Nat)
    (msgs : List Message) : Nat :=
  msgs.countP (fun m => !shouldInclude srcId forwarded lastRun m)

/-- The sync plan: the filters (lines 145-154), the planning loop (160-172) and
the final `reverse` (line 185) giving the oldest-first delivery order. -/
def syncPlan (srcId : Nat) (filesOnly : Bool) (forwarded : List String)
    (lastRun : Nat) (history : List Message) : List Message :=
  ((filterHistory filesOnly history).filter
    (shouldInclude srcId forwarded lastRun)).reverse

/-- Observable remote effects of a run: flood-wait sleeps (`time.sleep`,
line 221) and the two send calls (`send_file` line 195, `send_message`
line 202).  The id of the source message being delivered is carried on the send
events for bookkeeping. -/
inductive Event
| sleep (seconds : Nat)
| sendFile (destId srcMsgId : Nat) (caption : String) (replyTo : Option Nat)
| sendMessage (destId srcMsgId : Nat) (text : String) (replyTo : Option Nat)
deriving DecidableEq

/-- Environment-chosen outcome of repeatedly attempting one remote send: a
finite run of `FloodWaitError` waits (each carrying its `seconds`) ending
either in a successful attempt or in a non-flood exception.  An infinite flood
stream would make the source loop forever and has no counterpart in this
terminating model. -/
inductive SendOutcome
| ok (floodWaits : List Nat)
| fatal (floodWaits : List Nat)

/-- Whether the outcome ends in a successful attempt. -/
def isOkOutcome : SendOutcome → Bool
  | SendOutcome.ok _ => true
  | SendOutcome.fatal _ => false

/-- Which of the two send calls a message triggers. -/
inductive SendKind
| file
| message
deriving DecidableEq

/-- The branch taken on lines 194-206: `send_file` for media that is not a
web-page preview, `send_message` for truthy text, nothing otherwise. -/
def sendKind (m : Message) : Option SendKind :=
  match m.media with
  | some Media.webPage => if m.text = "" then none else some SendKind.message
  | some _ => some SendKind.file
  | none => if m.text = "" then none else some SendKind.message

/-- The event emitted by a successful send of `m` (caption and text are both
`msg.text`, lines 198 and 204; `reply_to` is the resolved topic id). -/
def sendEvent (destId : Nat) (topicId : Option Nat) (m : Message) :
    SendKind → Event
  | SendKind.file => Event.sendFile destId m.id m.text topicId
  | SendKind.message => Event.sendMessage destId m.id m.text topicId

/-- Recognises a send event that delivered the source message `msgId`. -/
def isSendEventFor (msgId : Nat) : Event → Bool
  | Event.sendFile _ i _ _ => decide (i = msgId)
  | Event.sendMessage _ i _ _ => decide (i = msgId)
  | Event.sleep _ => false

/-- One message through the inner `while True` loop (lines 192-224): each
`FloodWaitError` sleeps the mandated seconds and retries the same send; a
successful attempt issues at most one send event; a non-flood exception
abandons the message (line 224).  A message with nothing to send makes no
remote call inside the `try`, so no exception can occur and the loop body
completes at once.  Returns the emitted events and whether the `try` body
completed (reaching lines 208-217). -/
def processMessage (destId : Nat) (topicId : Option Nat) (m : Message)
    (out : SendOutcome) : List Event × Bool :=
  match sendKind m with
  | none => ([], true)
  | some k =>
    match out with
    | SendOutcome.ok floods =>
      (floods.map Event.sleep ++ [sendEvent destId topicId m k], true)
    | SendOutcome.fatal floods => (floods.map Event.sleep, false)

/-- Whether the `try` body for `m` completes under `env`: always when the
message has nothing to send (no remote call, hence no exception), otherwise
exactly when the environment lets the send succeed. -/
def msgSucceeds (env : Nat → SendOutcome) (m : Message) : Bool :=
  (sendKind m).isNone || isOkOutcome (env m.id)

/-- Running state of the delivery loop: the in-memory `forwarded_ids`, the
lines appended to the log file so far this run, `total_forwarded_in_session`,
and the trace of remote effects. -/
structure LoopState where
  forwarded : List String
  ledgerAppends : List String
  count : Nat
  trace : List Event
deriving DecidableEq

/-- Body of the delivery loop for one planned message (lines 191-224): on
completion of the `try` body, append the unique id to the log file and to the
in-memory set when it is new (lines 208-211) and bump the session counter
(line 212); on a non-flood send error, leave everything but the trace
unchanged (the message is skipped). -/
def stepState (srcId destId : Nat) (topicId : Option Nat)
    (env : Nat → SendOutcome) (m : Message) (st : LoopState) : LoopState :=
  let res := processMessage destId topicId m (env m.id)
  if res.2 then
    let uid := uniqueId srcId m.id
    if uid ∈ st.forwarded then
      { st with count := st.count + 1, trace := st.trace ++ res.1 }
    else
      { forwarded := st.forwarded ++ [uid],
        ledgerAppends := st.ledgerAppends ++ [uid],
        count := st.count + 1,
        trace := st.trace ++ res.1 }
  else
    { st with trace := st.trace ++ res.1 }

/-- The delivery loop (lines 190-224): fold the loop body over the planned
messages in order; a failure on one message never stops the remaining ones. -/
def deliveryLoop (srcId destId : Nat) (topicId : Option Nat)
    (env : Nat → SendOutcome) : List Message → LoopState → LoopState
  | [], st => st
  | m :: rest, st =>
    deliveryLoop srcId destId topicId env rest
      (stepState srcId destId topicId env m st)

/-- Python `or` on the two optional strings of line 125: a `None` or empty
title falls through to the username. -/
def orElseFalsy : Option String → Option String → Option String
  | some s, b => if s = "" then b else some s
  | none, b => b

/-- Lines 122-137: when the requested topic name is the empty-string sentinel,
derive it from the source title or username and abort when neither is truthy;
when a truthy topic name results, find or create the topic (`topicResolve`
models `_get_or_create_topic_id`) and abort when that yields nothing truthy.
`none` models an abort of the whole run; `some tid?` proceeds, with `tid?`
equal to `none` when no topic was requested. -/
def resolveTopicStage (src : Entity) (topicResolve : String → Option Nat) :
    Option String → Option (Option Nat)
  | none => some none
  | some name =>
    let finalName : Option String :=
      if name = "" then orElseFalsy src.title src.username else some name
    match finalName with
    | none => none
    | some fn =>
      if fn = "" then none
      else
        match topicResolve fn with
        | none => none
        | some tid => if tid = 0 then none else some (some tid)

/-- The environment of one `forward_messages_from_chat` call: `sourceResolve`
and `destResolve` are the results of `_resolve_entity_with_flood_wait`
(lines 109 and 113), `topicResolve` the result of `_get_or_create_topic_id`
for a given title, `history` the fully materialised `iter_messages` listing
(newest first, line 143), `env` the send outcome for each message id, `now`
the `time.time()` captured on line 119, plus the `files_only` and `topic_name`
arguments. -/
structure RunConfig where
  sourceResolve : Option Entity
  destResolve : Option Entity
  topicResolve : String → Option Nat
  history : List Message
  env : Nat → SendOutcome
  now : Nat
  filesOnly : Bool
  topicName : Option String

/-- Observable result of one run: the returned count, the trace of remote
effects, the final in-memory `forwarded_ids`, the lines appended to the
forwarded log, and the timestamp map written by `_save_timestamps` (`none`
when the file is never written). -/
structure RunResult where
  retVal : Nat
  trace : List Event
  forwarded : List String
  ledgerAppends : List String
  savedTimestamps : Option (List (Nat × Nat))
deriving DecidableEq

/-- A run that stops early: return 0 having sent nothing, appended nothing to
the log, and never called `_save_timestamps`. -/
def abortResult (forwardedIds : List String) : RunResult :=
  { retVal := 0, trace := [], forwarded := forwardedIds, ledgerAppends := [],
    savedTimestamps := none }

/-- The result of the empty-plan branch (lines 177-181): return 0, but save the
timestamp map first. -/
def emptyPlanResult (forwardedIds : List String) (saved : List (Nat × Nat)) :
    RunResult :=
  { retVal := 0, trace := [], forwarded := forwardedIds, ledgerAppends := [],
    savedTimestamps := some saved }

/-- The result of a run that reached the delivery loop (lines 190-230): report
the loop's final state and save the timestamp map. -/
def loopRunResult (st : LoopState) (saved : List (Nat × Nat)) : RunResult :=
  { retVal := st.count, trace := st.trace, forwarded := st.forwarded,
    ledgerAppends := st.ledgerAppends, savedTimestamps := some saved }

/-- `forward_messages_from_chat` (lines 102-230).  Aborts on failed source or
destination resolution (lines 110-115) and on topic failure (lines 124-137);
returns 0 without saving timestamps when the filtered history is empty
(lines 156-158); saves the start-of-run timestamp and returns 0 when the plan
is empty (lines 177-181); otherwise runs the delivery loop on the reversed
plan and then saves the start-of-run timestamp (lines 185-230). -/
def forward_messages_from_chat (cfg : RunConfig) (forwardedIds : List String)
    (storedTimestamps : List (Nat × Nat)) : RunResult :=
  match cfg.sourceResolve with
  | none => abortResult forwardedIds
  | some src =>
    match cfg.destResolve with
    | none => abortResult forwardedIds
    | some dst =>
      let lastRun := lookupTs storedTimestamps src.id
      match resolveTopicStage src cfg.topicResolve cfg.topicName with
      | none => abortResult forwardedIds
      | some topicId =>
        let allMessages := filterHistory cfg.filesOnly cfg.history
        if allMessages = [] then abortResult forwardedIds
        else
          let toProcess :=
            allMessages.filter (shouldInclude src.id forwardedIds lastRun)
          if toProcess = [] then
            emptyPlanResult forwardedIds (setTs storedTimestamps src.id cfg.now)
          else
            loopRunResult
              (deliveryLoop src.id dst.id topicId cfg.env toProcess.reverse
                { forwarded := forwardedIds, ledgerAppends := [], count := 0,
                  trace := [] })
              (setTs storedTimestamps src.id cfg.now)

/-- Load both stores, then run: `__init__` loads `forwarded_ids` (line 21) and
the run itself loads the timestamp map (line 117). -/
def runFromStores (cfg : RunConfig) (ledgerStore : Option (List String))
    (tsStore : Option (Option (List (Nat × Nat)))) : RunResult :=
  forward_messages_from_chat cfg (load_forwarded_ids ledgerStore)
    (load_timestamps tsStore).1

/-- Run once, then run again from the state the first run left behind: the
forwarded set the first run ended with (persisted via the append-only log) and
the timestamp file it wrote when it wrote one.  The second run may see
different send outcomes and a later clock. -/
def secondRun (cfg : RunConfig) (env2 : Nat → SendOutcome) (now2 : Nat)
    (fw : List String) (ts : List (Nat × Nat)) : RunResult :=
  let r1 := forward_messages_from_chat cfg fw ts
  forward_messages_from_chat { cfg with env := env2, now := now2 } r1.forwarded
    (r1.savedTimestamps.getD ts)

/-- Fixture: a source entity with id 10 and a title. -/
def srcEnt : Entity := { id := 10, title := some "Src", username := none }

/-- Fixture: a destination entity with id 20 and a title. -/
def dstEnt : Entity := { id := 20, title := some "Dst", username := none }

/-- Fixture: a plain text message. -/
def textMsg (i : Nat) (t : String) : Message :=
  { id := i, isService := false, media := none, text := t, editDate := none }

/-- Fixture: an environment in which every send succeeds at the first try. -/
def allOkEnv : Nat → SendOutcome := fun _ => SendOutcome.ok []

/-- Fixture: an environment in which every send raises a non-flood error at
the first try. -/
def allFatalEnv : Nat → SendOutcome := fun _ => SendOutcome.fatal []

/-- Fixture: a run configuration with both entities resolved, no topic
requested, files-only off, and clock 100. -/
def baseCfg (history : List Message) (env : Nat → SendOutcome) : RunConfig :=
  { sourceResolve := some srcEnt, destResolve := some dstEnt,
    topicResolve := fun _ => none, history := history, env := env,
    now := 100, filesOnly := false, topicName := none }

/-- Fixture: a service-action message (its `action` attribute is set). -/
def serviceMsg : Message :=
  { id := 3, isService := true, media := none, text := "x", editDate := none }

/-- Fixture: a record carrying neither media nor text. -/
def emptyMsg : Message :=
  { id := 7, isService := false, media := none, text := "", editDate := none }

/-- Fixture: a record whose only document attribute is a sticker tag. -/
def stickerOnlyMsg : Message :=
  { id := 1, isService := false, media := some (Media.doc [DocAttr.sticker]),
    text := "", editDate := none }

/-- Fixture: a record carrying a generic document whose only attribute is a
filename. -/
def genericDocMsg : Message :=
  { id := 2, isService := false,
    media := some (Media.doc [DocAttr.filename "a.bin"]),
    text := "", editDate := none }

/-- Fixture: five text messages listed newest-first, as `iter_messages`
yields them. -/
def fiveNewestFirst : List Message :=
  [textMsg 5 "m5", textMsg 4 "m4", textMsg 3 "m3", textMsg 2 "m2",
   textMsg 1 "m1"]

/-- Fixture: three text messages listed newest-first. -/
def threeNewestFirst : List Message :=
  [textMsg 3 "m3", textMsg 2 "m2", textMsg 1 "m1"]

/-- Fixture: sends of the message with id 2 raise a non-flood error; all
others succeed at once. -/
def secondFatalEnv : Nat → SendOutcome :=
  fun i => if i = 2 then SendOutcome.fatal [] else SendOutcome.ok []

/-- Fixture: a run whose source entity cannot be resolved. -/
def noResolveCfg : RunConfig :=
  { sourceResolve := none, destResolve := none, topicResolve := fun _ => none,
    history := [], env := allOkEnv, now := 0, filesOnly := false,
    topicName := none }

/-- The `try` body completes exactly when the message has nothing to send or
the environment lets its send succeed. -/
theorem processMessage_snd (destId : Nat) (topicId : Option Nat) (m : Message)
    (out : SendOutcome) :
    (processMessage destId topicId m out).2 = ((sendKind m).isNone || isOkOutcome out) := by
  cases hm : sendKind m <;> cases out <;>
    simp [processMessage, hm, isOkOutcome]

/-- The loop body always extends the trace by the events of the processed
message. -/
theorem stepState_trace (srcId destId : Nat) (topicId : Option Nat)
    (env : Nat → SendOutcome) (m : Message) (st : LoopState) :
    (stepState srcId destId topicId env m st).trace =
      st.trace ++ (processMessage destId topicId m (env m.id)).1 := by
  simp only [stepState]
  split
  · split <;> rfl
  · rfl

/-- The loop body never removes an element of the in-memory forwarded set. -/
theorem stepState_forwarded_mono (srcId destId : Nat) (topicId : Option Nat)
    (env : Nat → SendOutcome) (m : Message) (st : LoopState) (x : String)
    (hx : x ∈ st.forwarded) :
    x ∈ (stepState srcId destId topicId env m st).forwarded := by
  simp only [stepState]
  split
  · split
    · exact hx
    · exact List.mem_append_left _ hx
  · exact hx

/-- The loop body never removes an appended log line. -/
theorem stepState_appends_mono (srcId destId : Nat) (topicId : Option Nat)
    (env : Nat → SendOutcome) (m : Message) (st : LoopState) (x : String)
    (hx : x ∈ st.ledgerAppends) :
    x ∈ (stepState srcId destId topicId env m st).ledgerAppends := by
  simp only [stepState]
  split
  · split
    · exact hx
    · exact List.mem_append_left _ hx
  · exact hx

/-- After a successful loop body, the unique id of the processed message is in
the in-memory forwarded set. -/
theorem stepState_forwarded_of_success (srcId destId : Nat)
    (topicId : Option Nat) (env : Nat → SendOutcome) (m : Message)
    (st : LoopState) (hsucc : msgSucceeds env m = true) :
    uniqueId srcId m.id ∈ (stepState srcId destId topicId env m st).forwarded := by
  have h2 : (processMessage destId topicId m (env m.id)).2 = true := by
    rw [processMessage_snd]; exact hsucc
  simp only [stepState, h2, if_true]
  split
  · assumption
  · exact List.mem_append_right _ (List.mem_singleton.mpr rfl)

/-- A successful loop body on a message whose unique id is not yet in the
in-memory set appends that id to the log file. -/
theorem stepState_appends_of_fresh (srcId destId : Nat) (topicId : Option Nat)
    (env : Nat → SendOutcome) (m : Message) (st : LoopState)
    (hsucc : msgSucceeds env m = true)
    (hfresh : uniqueId srcId m.id ∉ st.forwarded) :
    uniqueId srcId m.id ∈ (stepState srcId destId topicId env m st).ledgerAppends := by
  have h2 : (processMessage destId topicId m (env m.id)).2 = true := by
    rw [processMessage_snd]; exact hsucc
  simp only [stepState, h2, if_true]
  rw [if_neg hfresh]
  exact List.mem_append_right _ (List.mem_singleton.mpr rfl)

/-- Anything in the forwarded set after the loop body was there before, or is
the unique id of the processed message and the body succeeded. -/
theorem stepState_forwarded_origin (srcId destId : Nat) (topicId : Option Nat)
    (env : Nat → SendOutcome) (m : Message) (st : LoopState) (x : String)
    (hx : x ∈ (stepState srcId destId topicId env m st).forwarded) :
    x ∈ st.forwarded ∨ (x = uniqueId srcId m.id ∧ msgSucceeds env m = true) := by
  simp only [stepState] at hx
  split at hx
  · rename_i hcond
    split at hx
    · exact Or.inl hx
    · rcases List.mem_append.mp hx with h | h
      · exact Or.inl h
      · refine Or.inr ⟨List.mem_singleton.mp h, ?_⟩
        rw [processMessage_snd] at hcond
        exact hcond
  · exact Or.inl hx

/-- Anything appended to the log by the loop body was appended before, or is
the unique id of the processed message and the body succeeded. -/
theorem stepState_appends_origin (srcId destId : Nat) (topicId : Option Nat)
    (env : Nat → SendOutcome) (m : Message) (st : LoopState) (x : String)
    (hx : x ∈ (stepState srcId destId topicId env m st).ledgerAppends) :
    x ∈ st.ledgerAppends ∨ (x = uniqueId srcId m.id ∧ msgSucceeds env m = true) := by
  simp only [stepState] at hx
  split at hx
  · rename_i hcond
    split at hx
    · exact Or.inl hx
    · rcases List.mem_append.mp hx with h | h
      · exact Or.inl h
      · refine Or.inr ⟨List.mem_singleton.mp h, ?_⟩
        rw [processMessage_snd] at hcond
        exact hcond
  · exact Or.inl hx

/-- The loop body bumps the counter exactly when the `try` body completes. -/
theorem stepState_count (srcId destId : Nat) (topicId : Option Nat)
    (env : Nat → SendOutcome) (m : Message) (st : LoopState) :
    (stepState srcId destId topicId env m st).count =
      st.count + (if msgSucceeds env m = true then 1 else 0) := by
  have hms : msgSucceeds env m = (processMessage destId topicId m (env m.id)).2 :=
    (processMessage_snd destId topicId m (env m.id)).symm
  simp only [stepState]
  by_cases h : (processMessage destId topicId m (env m.id)).2 = true
  · rw [if_pos h, hms, if_pos h]
    split <;> rfl
  · rw [if_neg h, hms, if_neg h]
    rfl

/-- The delivery loop never removes an element of the in-memory forwarded
set. -/
theorem deliveryLoop_forwarded_mono (srcId destId : Nat) (topicId : Option Nat)
    (env : Nat → SendOutcome) (x : String) :
    ∀ (plan : List Message) (st : LoopState), x ∈ st.forwarded →
      x ∈ (deliveryLoop srcId destId topicId env plan st).forwarded := by
  intro plan
  induction plan with
  | nil => intro st hx; exact hx
  | cons m rest ih =>
    intro st hx
    exact ih _ (stepState_forwarded_mono srcId destId topicId env m st x hx)

/-- The delivery loop never removes an appended log line. -/
theorem deliveryLoop_appends_mono (srcId destId : Nat) (topicId : Option Nat)
    (env : Nat → SendOutcome) (x : String) :
    ∀ (plan : List Message) (st : LoopState), x ∈ st.ledgerAppends →
      x ∈ (deliveryLoop srcId destId topicId env plan st).ledgerAppends := by
  intro plan
  induction plan with
  | nil => intro st hx; exact hx
  | cons m rest ih =>
    intro st hx
    exact ih _ (stepState_appends_mono srcId destId topicId env m st x hx)

/-- The delivery loop never drops a trace event. -/
theorem deliveryLoop_trace_mono (srcId destId : Nat) (topicId : Option Nat)
    (env : Nat → SendOutcome) (e : Event) :
    ∀ (plan : List Message) (st : LoopState), e ∈ st.trace →
      e ∈ (deliveryLoop srcId destId topicId env plan st).trace := by
  intro plan
  induction plan with
  | nil => intro st hx; exact hx
  | cons m rest ih =>
    intro st hx
    refine ih _ ?_
    rw [stepState_trace]
    exact List.mem_append_left _ hx

/-- Every planned message whose `try` body completes ends up in the in-memory
forwarded set. -/
theorem deliveryLoop_forwarded_of_mem (srcId destId : Nat)
    (topicId : Option Nat) (env : Nat → SendOutcome) (m : Message) :
    ∀ (plan : List Message) (st : LoopState), m ∈ plan →
      msgSucceeds env m = true →
      uniqueId srcId m.id ∈ (deliveryLoop srcId destId topicId env plan st).forwarded := by
  intro plan
  induction plan with
  | nil => intro st hm; cases hm
  | cons m0 rest ih =>
    intro st hm hsucc
    rcases List.mem_cons.mp hm with h | h
    · subst h
      exact deliveryLoop_forwarded_mono srcId destId topicId env _ rest _
        (stepState_forwarded_of_success srcId destId topicId env m st hsucc)
    · exact ih _ h hsucc

/-- Anything in the forwarded set after the delivery loop was there before, or
is the unique id of a planned message whose `try` body completed. -/
theorem deliveryLoop_forwarded_origin (srcId destId : Nat)
    (topicId : Option Nat) (env : Nat → SendOutcome) (x : String) :
    ∀ (plan : List Message) (st : LoopState),
      x ∈ (deliveryLoop srcId destId topicId env plan st).forwarded →
      x ∈ st.forwarded ∨
        ∃ m, m ∈ plan ∧ x = uniqueId srcId m.id ∧ msgSucceeds env m = true := by
  intro plan
  induction plan with
  | nil => intro st hx; exact Or.inl hx
  | cons m0 rest ih =>
    intro st hx
    rcases ih _ hx with h | ⟨m, hm, hx2, hs⟩
    · rcases stepState_forwarded_origin srcId destId topicId env m0 st x h with
        h2 | ⟨hx2, hs⟩
      · exact Or.inl h2
      · exact Or.inr ⟨m0, List.mem_cons_self m0 rest, hx2, hs⟩
    · exact Or.inr ⟨m, List.mem_cons_of_mem m0 hm, hx2, hs⟩

/-- Anything appended to the log by the delivery loop was appended before, or
is the unique id of a planned message whose `try` body completed. -/
theorem deliveryLoop_appends_origin (srcId destId : Nat) (topicId : Option Nat)
    (env : Nat → SendOutcome) (x : String) :
    ∀ (plan : List Message) (st : LoopState),
      x ∈ (deliveryLoop srcId destId topicId env plan st).ledgerAppends →
      x ∈ st.ledgerAppends ∨
        ∃ m, m ∈ plan ∧ x = uniqueId srcId m.id ∧ msgSucceeds env m = true := by
  intro plan
  induction plan with
  | nil => intro st hx; exact Or.inl hx
  | cons m0 rest ih =>
    intro st hx
    rcases ih _ hx with h | ⟨m, hm, hx2, hs⟩
    · rcases stepState_appends_origin srcId destId topicId env m0 st x h with
        h2 | ⟨hx2, hs⟩
      · exact Or.inl h2
      · exact Or.inr ⟨m0, List.mem_cons_self m0 rest, hx2, hs⟩
    · exact Or.inr ⟨m, List.mem_cons_of_mem m0 hm, hx2, hs⟩

/-- The counter returned by the delivery loop counts exactly the planned
messages whose `try` body completed. -/
theorem deliveryLoop_count (srcId destId : Nat) (topicId : Option Nat)
    (env : Nat → SendOutcome) :
    ∀ (plan : List Message) (st : LoopState),
      (deliveryLoop srcId destId topicId env plan st).count =
        st.count + plan.countP (msgSucceeds env) := by
  intro plan
  induction plan with
  | nil => intro st; simp [deliveryLoop]
  | cons m0 rest ih =>
    intro st
    simp only [deliveryLoop]
    rw [ih, stepState_count, List.countP_cons]
    by_cases h : msgSucceeds env m0 = true
    · rw [if_pos h]
      omega
    · rw [if_neg h]
      omega

/-- Every event of the delivery loop's trace was there before the loop or was
emitted while processing some planned message. -/
theorem deliveryLoop_trace_origin (srcId destId : Nat) (topicId : Option Nat)
    (env : Nat → SendOutcome) (e : Event) :
    ∀ (plan : List Message) (st : LoopState),
      e ∈ (deliveryLoop srcId destId topicId env plan st).trace →
      e ∈ st.trace ∨
        ∃ m, m ∈ plan ∧ e ∈ (processMessage destId topicId m (env m.id)).1 := by
  intro plan
  induction plan with
  | nil => intro st hx; exact Or.inl hx
  | cons m0 rest ih =>
    intro st hx
    rcases ih _ hx with h | ⟨m, hm, he⟩
    · rw [stepState_trace] at h
      rcases List.mem_append.mp h with h2 | h2
      · exact Or.inl h2
      · exact Or.inr ⟨m0, List.mem_cons_self m0 rest, h2⟩
    · exact Or.inr ⟨m, List.mem_cons_of_mem m0 hm, he⟩

/-- A planned message with a send kind whose environment outcome is a success
has its send event in the loop's trace. -/
theorem deliveryLoop_send_of_mem (srcId destId : Nat) (topicId : Option Nat)
    (env : Nat → SendOutcome) (m : Message) (k : SendKind)
    (hk : sendKind m = some k) :
    ∀ (plan : List Message) (st : LoopState), m ∈ plan →
      isOkOutcome (env m.id) = true →
      sendEvent destId topicId m k ∈ (deliveryLoop srcId destId topicId env plan st).trace := by
  intro plan
  induction plan with
  | nil => intro st hm; cases hm
  | cons m0 rest ih =>
    intro st hm hok
    rcases List.mem_cons.mp hm with h | h
    · subst h
      refine deliveryLoop_trace_mono srcId destId topicId env _ rest _ ?_
      rw [stepState_trace]
      refine List.mem_append_right _ ?_
      obtain ⟨floods, hfl⟩ : ∃ floods, env m.id = SendOutcome.ok floods := by
        cases hout : env m.id with
        | ok floods => exact ⟨floods, rfl⟩
        | fatal floods => rw [hout] at hok; simp [isOkOutcome] at hok
      simp [processMessage, hk, hfl]
    · exact ih _ h hok

/-- The events emitted while processing one message are flood-wait sleeps plus
at most the send event of that very message: a send event carrying source
message id `i` can only come from the message with id `i`. -/
theorem processMessage_send_events (destId : Nat) (topicId : Option Nat)
    (m : Message) (out : SendOutcome) (i : Nat) (e : Event)
    (he : e ∈ (processMessage destId topicId m out).1)
    (hse : isSendEventFor i e = true) : m.id = i := by
  cases hk : sendKind m with
  | none => simp [processMessage, hk] at he
  | some k =>
    cases out with
    | ok floods =>
      simp only [processMessage, hk] at he
      rcases List.mem_append.mp he with h | h
      · obtain ⟨s, _, hes⟩ := List.mem_map.mp h
        rw [← hes] at hse
        simp [isSendEventFor] at hse
      · have hee : e = sendEvent destId topicId m k := List.mem_singleton.mp h
        subst hee
        cases k <;> simpa [sendEvent, isSendEventFor] using hse
    | fatal floods =>
      simp only [processMessage, hk] at he
      obtain ⟨s, _, hes⟩ := List.mem_map.mp he
      rw [← hes] at hse
      simp [isSendEventFor] at hse

/-- The planning predicate holds exactly on messages not yet in the forwarded
set, or in it but edited strictly after the last run. -/
theorem shouldInclude_iff (srcId : Nat) (fw : List String) (lastRun : Nat)
    (m : Message) :
    shouldInclude srcId fw lastRun m = true ↔
      uniqueId srcId m.id ∉ fw ∨
        ∃ e, m.editDate = some e ∧ lastRun < e := by
  unfold shouldInclude
  by_cases h : uniqueId srcId m.id ∈ fw
  · rw [if_pos h]
    cases he : m.editDate with
    | none => simp [h, he]
    | some e => simp [h, he]
  · rw [if_neg h]
    simp [h]

/-- Writing a chat's timestamp then reading it back yields the written
value. -/
theorem lookupTs_setTs (ts : List (Nat × Nat)) (key t : Nat) :
    lookupTs (setTs ts key t) key = t := by
  induction ts with
  | nil => simp [setTs, lookupTs]
  | cons kv rest ih =>
    obtain ⟨k, v⟩ := kv
    by_cases h : k = key
    · simp [setTs, lookupTs, h]
    · simp [setTs, lookupTs, h, ih]

/-- Messages surviving the two listing filters come from the history. -/
theorem filterHistory_subset (filesOnly : Bool) (history : List Message)
    (m : Message) (hm : m ∈ filterHistory filesOnly history) : m ∈ history := by
  unfold filterHistory at hm
  by_cases h : filesOnly = true
  · rw [if_pos h] at hm
    exact (List.mem_filter.mp (List.mem_filter.mp hm).1).1
  · rw [if_neg h] at hm
    exact (List.mem_filter.mp hm).1

/-- When no topic is requested, the topic stage succeeds with no topic id. -/
theorem resolveTopicStage_noTopic (src : Entity)
    (topicResolve : String → Option Nat) :
    resolveTopicStage src topicResolve none = some none := rfl

/-- Unfolding of the run once both entities are resolved and the topic stage
has succeeded. -/
theorem run_resolved_eq (cfg : RunConfig) (fw : List String)
    (ts : List (Nat × Nat)) (src dst : Entity) (topicId : Option Nat)
    (hs : cfg.sourceResolve = some src) (hd : cfg.destResolve = some dst)
    (htop : resolveTopicStage src cfg.topicResolve cfg.topicName = some topicId) :
    forward_messages_from_chat cfg fw ts =
      (if filterHistory cfg.filesOnly cfg.history = [] then abortResult fw
       else if (filterHistory cfg.filesOnly cfg.history).filter
           (shouldInclude src.id fw (lookupTs ts src.id)) = [] then
         emptyPlanResult fw (setTs ts src.id cfg.now)
       else
         loopRunResult
           (deliveryLoop src.id dst.id topicId cfg.env
             ((filterHistory cfg.filesOnly cfg.history).filter
               (shouldInclude src.id fw (lookupTs ts src.id))).reverse
             { forwarded := fw, ledgerAppends := [], count := 0, trace := [] })
           (setTs ts src.id cfg.now)) := by
  unfold forward_messages_from_chat
  simp only [hs, hd, htop]

/-- If every message already planned under the old state ended up in the grown
forwarded set, and no message of the filtered history was edited after the new
watermark, then the plan computed from the grown set and the new watermark is
empty. -/
theorem plan_filter_empty (srcId : Nat) (fw fw2 : List String) (wm0 now1 : Nat)
    (F : List Message)
    (hgrow : ∀ x, x ∈ fw → x ∈ fw2)
    (hplanned : ∀ m, m ∈ F → shouldInclude srcId fw wm0 m = true →
      uniqueId srcId m.id ∈ fw2)
    (hedit : ∀ m, m ∈ F → ∀ e, m.editDate = some e → e ≤ now1) :
    F.filter (shouldInclude srcId fw2 now1) = [] := by
  rw [List.filter_eq_nil_iff]
  intro m hm hinc
  rcases (shouldInclude_iff srcId fw2 now1 m).mp hinc with hnm | ⟨e, he, hlt⟩
  · apply hnm
    by_cases h : shouldInclude srcId fw wm0 m = true
    · exact hplanned m hm h
    · apply hgrow
      by_contra hn
      exact h ((shouldInclude_iff srcId fw wm0 m).mpr (Or.inl hn))
  · exact absurd hlt (Nat.not_lt.mpr (hedit m hm e he))

/-- A record carrying neither non-webpage media nor text triggers no send
call. -/
theorem sendKind_none_of_degenerate (m : Message)
    (hmedia : m.media = none ∨ m.media = some Media.webPage)
    (htext : m.text = "") : sendKind m = none := by
  rcases hmedia with h | h <;> simp [sendKind, h, htext]

/-- A successful planned message whose unique id is fresh and not shared with
any other planned message gets its id appended to the log file. -/
theorem deliveryLoop_appends_of_fresh (srcId destId : Nat)
    (topicId : Option Nat) (env : Nat → SendOutcome) (m : Message) :
    ∀ (plan : List Message) (st : LoopState), m ∈ plan →
      msgSucceeds env m = true →
      uniqueId srcId m.id ∉ st.forwarded →
      (∀ m2, m2 ∈ plan → uniqueId srcId m2.id = uniqueId srcId m.id → m2 = m) →
      uniqueId srcId m.id ∈ (deliveryLoop srcId destId topicId env plan st).ledgerAppends := by
  intro plan
  induction plan with
  | nil => intro st hm; cases hm
  | cons m0 rest ih =>
    intro st hm hsucc hfresh huniq
    by_cases he : m0 = m
    · subst he
      exact deliveryLoop_appends_mono srcId destId topicId env _ rest _
        (stepState_appends_of_fresh srcId destId topicId env m0 st hsucc hfresh)
    · have hm2 : m ∈ rest := by
        rcases List.mem_cons.mp hm with h | h
        · exact absurd h.symm he
        · exact h
      refine ih _ hm2 hsucc ?_
        (fun m2 h2 => huniq m2 (List.mem_cons_of_mem m0 h2))
      intro hmem
      rcases stepState_forwarded_origin srcId destId topicId env m0 st _ hmem
        with h | ⟨heq, _⟩
      · exact hfresh h
      · exact he (huniq m0 (List.mem_cons_self m0 rest) heq.symm)

/-- Splitting a count by a boolean predicate recovers the length. -/
theorem countP_not_add {α : Type} (p : α → Bool) :
    ∀ l : List α, l.countP p + l.countP (fun a => !p a) = l.length := by
  intro l
  induction l with
  | nil => rfl
  | cons a rest ih =>
    rw [List.countP_cons, List.countP_cons]
    by_cases h : p a = true
    · rw [if_pos h, if_neg (by simp [h])]
      simp only [List.length_cons]
      omega
    · rw [if_neg h, if_pos (by simp [Bool.not_eq_true] at h; simp [h])]
      simp only [List.length_cons]
      omega

/-- C4: for a planned message whose send signals any finite sequence of rate
limits each carrying a wait duration and then succeeds, the delivery loop
sleeps exactly each signalled duration, retries the same send (however many
signals arrive — the retry loop is unbounded and waits exactly what the
platform dictates), delivers the message exactly once, and appends exactly one
ledger line for it. -/
theorem C4_rate_limit_survival (srcId destId : Nat) (topicId : Option Nat)
    (env : Nat → SendOutcome) (m : Message) (k : SendKind) (floods : List Nat)
    (fw : List String) (hk : sendKind m = some k)
    (henv : env m.id = SendOutcome.ok floods)
    (hfresh : uniqueId srcId m.id ∉ fw) :
    deliveryLoop srcId destId topicId env [m]
        { forwarded := fw, ledgerAppends := [], count := 0, trace := [] } =
      { forwarded := fw ++ [uniqueId srcId m.id],
        ledgerAppends := [uniqueId srcId m.id],
        count := 1,
        trace := List.map Event.sleep floods ++ [sendEvent destId topicId m k] } := by
  simp [deliveryLoop, stepState, processMessage, hk, henv, hfresh]

/-- C4 witness: a send that signals a 5-second rate limit once and then
succeeds sleeps 5 seconds, delivers the message exactly once and appends
exactly one ledger entry. -/
theorem C4_rate_limit_survival_witness :
    deliveryLoop 10 20 none (fun _ => SendOutcome.ok [5]) [textMsg 1 "a"]
        { forwarded := [], ledgerAppends := [], count := 0, trace := [] } =
      { forwarded := ["10:1"], ledgerAppends := ["10:1"], count := 1,
        trace := [Event.sleep 5, Event.sendMessage 20 1 "a" none] } := by
  have h := C4_rate_limit_survival 10 20 none (fun _ => SendOutcome.ok [5])
    (textMsg 1 "a") SendKind.message [5] [] rfl rfl (by decide)
  simpa using h

/-- C6: in files-only mode a record is retained iff it has a document
attachment and none of the document's attributes marks it as sticker,
animated, audio or image-dimension-only; the listing keeps exactly the
non-service records passing that predicate; a record with only a sticker
attribute is excluded and a record with a generic document attribute is
included. -/
theorem C6_files_only_filter :
    (∀ m : Message, filesOnlyKeep m = true ↔
      ∃ attrs, m.document = some attrs ∧ ∀ a, a ∈ attrs →
        isStickerAttr a = false ∧ isAnimatedAttr a = false ∧
          isAudioAttr a = false ∧ isImageSizeAttr a = false)
    ∧ (∀ (history : List Message) (m : Message),
        m ∈ filterHistory true history ↔
          m ∈ history ∧ m.isService = false ∧ filesOnlyKeep m = true)
    ∧ filesOnlyKeep stickerOnlyMsg = false
    ∧ filesOnlyKeep genericDocMsg = true := by
  refine ⟨?_, ?_, by decide, by decide⟩
  · intro m
    unfold filesOnlyKeep
    cases hd : m.document with
    | none => simp
    | some attrs =>
      simp only [Option.some.injEq, Bool.and_eq_true, Bool.not_eq_true']
      constructor
      · rintro ⟨⟨⟨h1, h2⟩, h3⟩, h4⟩
        refine ⟨attrs, rfl, fun a ha => ⟨?_, ?_, ?_, ?_⟩⟩
        · simpa using List.any_eq_false.mp h1 a ha
        · simpa using List.any_eq_false.mp h2 a ha
        · simpa using List.any_eq_false.mp h3 a ha
        · simpa using List.any_eq_false.mp h4 a ha
      · rintro ⟨attrs2, heq, h⟩
        cases heq
        refine ⟨⟨⟨?_, ?_⟩, ?_⟩, ?_⟩
        · exact List.any_eq_false.mpr (fun a ha => by simp [(h a ha).1])
        · exact List.any_eq_false.mpr (fun a ha => by simp [(h a ha).2.1])
        · exact List.any_eq_false.mpr (fun a ha => by simp [(h a ha).2.2.1])
        · exact List.any_eq_false.mpr (fun a ha => by simp [(h a ha).2.2.2])
  · intro history m
    show m ∈ (history.filter fun mm => !mm.isService).filter filesOnlyKeep ↔ _
    rw [List.mem_filter, List.mem_filter, Bool.not_eq_true', and_assoc]

/-- C9: when source resolution fails, destination resolution fails, or the
topic stage fails (including the empty-string sentinel with no derivable
source name), the run returns 0 without any send and without writing the
forwarded log or the timestamp file. -/
theorem C9_abort_leaves_state_unchanged (cfg : RunConfig) (fw : List String)
    (ts : List (Nat × Nat)) :
    (cfg.sourceResolve = none →
      forward_messages_from_chat cfg fw ts = abortResult fw)
    ∧ (∀ src, cfg.sourceResolve = some src → cfg.destResolve = none →
        forward_messages_from_chat cfg fw ts = abortResult fw)
    ∧ (∀ src dst, cfg.sourceResolve = some src → cfg.destResolve = some dst →
        resolveTopicStage src cfg.topicResolve cfg.topicName = none →
        forward_messages_from_chat cfg fw ts = abortResult fw)
    ∧ (∀ src : Entity, src.title = none → src.username = none →
        resolveTopicStage src cfg.topicResolve (some "") = none)
    ∧ (∀ src : Entity, ∀ name, name ≠ "" → cfg.topicResolve name = none →
        resolveTopicStage src cfg.topicResolve (some name) = none)
    ∧ (abortResult fw).retVal = 0 ∧ (abortResult fw).trace = []
    ∧ (abortResult fw).ledgerAppends = []
    ∧ (abortResult fw).savedTimestamps = none := by
  refine ⟨?_, ?_, ?_, ?_, ?_, rfl, rfl, rfl, rfl⟩
  · intro h
    unfold forward_messages_from_chat
    simp only [h]
  · intro src h1 h2
    unfold forward_messages_from_chat
    simp only [h1, h2]
  · intro src dst h1 h2 h3
    unfold forward_messages_from_chat
    simp only [h1, h2, h3]
  · intro src h1 h2
    simp [resolveTopicStage, h1, h2, orElseFalsy]
  · intro src name h1 h2
    simp [resolveTopicStage, h1, h2]

/-- C9 witness: a run whose source entity resolution fails returns 0 with an
empty trace, no ledger append and no timestamp write. -/
theorem C9_abort_leaves_state_unchanged_witness :
    forward_messages_from_chat noResolveCfg [] [] = abortResult [] :=
  (C9_abort_leaves_state_unchanged noResolveCfg [] []).1 rfl

/-- C10 counterexample: loading the watermark store from a missing backing
file returns the empty mapping but emits no warning (the source echoes the
warning only on a JSON decode error, lines 86-93), refuting the claim that a
missing file produces a warning. -/
theorem C10_tolerant_loading_cex : (load_timestamps none).2 = false := rfl

/-- C10 (amended): loading the delivery ledger with a missing or empty (or
all-blank) backing store returns the empty set; loading the watermark store
with a missing backing file returns the empty mapping silently, and with an
undecodable backing file returns the empty mapping with a warning; in every
such case the run proceeds from the empty state rather than failing. -/
theorem C10_tolerant_loading_amended :
    load_forwarded_ids none = []
    ∧ load_forwarded_ids (some []) = []
    ∧ load_forwarded_ids (some ["", "   "]) = []
    ∧ load_timestamps none = ([], false)
    ∧ load_timestamps (some none) = ([], true)
    ∧ (∀ t, load_timestamps (some (some t)) = (t, false))
    ∧ (∀ cfg, runFromStores cfg none none =
        forward_messages_from_chat cfg [] [])
    ∧ (∀ cfg, runFromStores cfg (some []) (some none) =
        forward_messages_from_chat cfg [] []) := by
  exact ⟨rfl, rfl, by decide, rfl, rfl, fun t => rfl, fun cfg => rfl,
    fun cfg => rfl⟩

/-- C2 counterexample: with an empty source history (first conjunct) or a
history wholly removed by the service-action filter (second conjunct), the run
returns 0 but `_save_timestamps` is never called (line 158 returns before the
save on line 179), so the watermark is not updated, refuting the claim. -/
theorem C2_watermark_on_empty_plan_cex :
    (forward_messages_from_chat (baseCfg [] allOkEnv) [] []).savedTimestamps
        = none
    ∧ (forward_messages_from_chat (baseCfg [serviceMsg] allOkEnv)
        [] []).savedTimestamps = none := by
  decide

/-- C2 (amended): when the filtered history is nonempty but the sync plan is
empty, the run completes with return value 0, no sends, and the watermark for
the source chat updated to the instant captured at run start; when the source
history is empty or wholly filtered out, the run instead returns 0 without
updating the watermark. -/
theorem C2_watermark_on_empty_plan_amended (cfg : RunConfig) (fw : List String)
    (ts : List (Nat × Nat)) (src dst : Entity) (topicId : Option Nat)
    (hs : cfg.sourceResolve = some src) (hd : cfg.destResolve = some dst)
    (htop : resolveTopicStage src cfg.topicResolve cfg.topicName = some topicId) :
    (filterHistory cfg.filesOnly cfg.history ≠ [] →
      (filterHistory cfg.filesOnly cfg.history).filter
          (shouldInclude src.id fw (lookupTs ts src.id)) = [] →
      forward_messages_from_chat cfg fw ts =
        emptyPlanResult fw (setTs ts src.id cfg.now))
    ∧ (filterHistory cfg.filesOnly cfg.history = [] →
      forward_messages_from_chat cfg fw ts = abortResult fw) := by
  rw [run_resolved_eq cfg fw ts src dst topicId hs hd htop]
  constructor
  · intro hF hplan
    rw [if_neg hF, if_pos hplan]
  · intro hF
    rw [if_pos hF]

/-- C2 witness: a one-message history already in the ledger and unedited gives
an empty plan; the run returns 0 and writes the run-start instant as the
watermark. -/
theorem C2_watermark_on_empty_plan_amended_witness :
    forward_messages_from_chat (baseCfg [textMsg 1 "a"] allOkEnv) ["10:1"] [] =
      emptyPlanResult ["10:1"] (setTs [] 10 100) :=
  (C2_watermark_on_empty_plan_amended (baseCfg [textMsg 1 "a"] allOkEnv)
    ["10:1"] [] srcEnt dstEnt none rfl rfl rfl).1 (by decide) (by decide)

/-- C5: without the files-only filter, the sync plan keeps exactly the
non-service records that are either not in the ledger, or in the ledger with
an edit timestamp set and strictly greater than the watermark; the remaining
filtered records are the skipped ones counted for reporting; the retained
sequence is reversed, so the newest-first history `[m5,m4,m3,m2,m1]` with
nothing previously delivered is delivered in the order `m1,m2,m3,m4,m5`. -/
theorem C5_sync_plan_construction (srcId : Nat) (fw : List String) (wm : Nat)
    (history : List Message) :
    (syncPlan srcId false fw wm history =
      (history.filter
        (fun m => !m.isService && shouldInclude srcId fw wm m)).reverse)
    ∧ (∀ m, m ∈ syncPlan srcId false fw wm history ↔
        m ∈ history ∧ m.isService = false ∧
          (uniqueId srcId m.id ∉ fw ∨ ∃ e, m.editDate = some e ∧ wm < e))
    ∧ (filterHistory false history).length =
        (syncPlan srcId false fw wm history).length
          + skippedCount srcId fw wm (filterHistory false history)
    ∧ (forward_messages_from_chat (baseCfg fiveNewestFirst allOkEnv)
        [] []).trace =
      [Event.sendMessage 20 1 "m1" none, Event.sendMessage 20 2 "m2" none,
       Event.sendMessage 20 3 "m3" none, Event.sendMessage 20 4 "m4" none,
       Event.sendMessage 20 5 "m5" none] := by
  refine ⟨?_, ?_, ?_, by decide⟩
  · have h1 : syncPlan srcId false fw wm history
        = ((history.filter fun m => !m.isService).filter
            (shouldInclude srcId fw wm)).reverse := rfl
    rw [h1, List.filter_filter]
    exact congrArg List.reverse
      (List.filter_congr (fun a _ => Bool.and_comm _ _))
  · intro m
    have hmem : m ∈ filterHistory false history ↔
        m ∈ history ∧ m.isService = false := by
      show m ∈ history.filter (fun mm => !mm.isService) ↔ _
      rw [List.mem_filter, Bool.not_eq_true']
    rw [syncPlan, List.mem_reverse, List.mem_filter, hmem, shouldInclude_iff,
      and_assoc]
  · rw [syncPlan, List.length_reverse, skippedCount]
    have h2 : ((filterHistory false history).filter
        (shouldInclude srcId fw wm)).length
        = (filterHistory false history).countP (shouldInclude srcId fw wm) :=
      (List.countP_eq_length_filter (shouldInclude srcId fw wm)
        (filterHistory false history)).symm
    rw [h2, ← countP_not_add (shouldInclude srcId fw wm)
      (filterHistory false history)]

/-- C7: a planned record carrying neither non-webpage-preview media nor text
causes the delivery loop to issue no media send and no text send for it — the
record is dropped silently (no send event of the run carries its message
id). -/
theorem C7_degenerate_not_sent (srcId destId : Nat) (topicId : Option Nat)
    (env : Nat → SendOutcome) (plan : List Message) (m0 : Message)
    (hm0 : m0 ∈ plan)
    (hmedia : m0.media = none ∨ m0.media = some Media.webPage)
    (htext : m0.text = "")
    (huniq : ∀ m, m ∈ plan → m.id = m0.id → m = m0)
    (st : LoopState)
    (hst : ∀ e, e ∈ st.trace → isSendEventFor m0.id e = false) :
    ∀ e, e ∈ (deliveryLoop srcId destId topicId env plan st).trace →
      isSendEventFor m0.id e = false := by
  intro e he
  rcases deliveryLoop_trace_origin srcId destId topicId env e plan st he with
    h | ⟨m, hm, hpm⟩
  · exact hst e h
  · by_contra hne
    have hb : isSendEventFor m0.id e = true := by
      cases hval : isSendEventFor m0.id e
      · exact absurd hval hne
      · rfl
    have hid : m.id = m0.id :=
      processMessage_send_events destId topicId m (env m.id) m0.id e hpm hb
    have hmm : m = m0 := huniq m hm hid
    subst hmm
    have hsk : sendKind m = none := sendKind_none_of_degenerate m hmedia htext
    simp [processMessage, hsk] at hpm

/-- C7 witness: in a plan of a text message (id 1) followed by a degenerate
record (id 7), the produced send event does not carry the degenerate record's
id — nothing was sent for it. -/
theorem C7_degenerate_not_sent_witness :
    isSendEventFor 7 (Event.sendMessage 20 1 "x" none) = false :=
  C7_degenerate_not_sent 10 20 none allOkEnv [textMsg 1 "x", emptyMsg]
    emptyMsg (by decide) (Or.inl rfl) rfl (by decide)
    { forwarded := [], ledgerAppends := [], count := 0, trace := [] }
    (fun e he => absurd he (List.not_mem_nil e))
    (Event.sendMessage 20 1 "x" none) (by decide)

/-- A resolved run whose sync plan is empty returns 0 and sends nothing
(covering both the empty-filtered-history return and the empty-plan
return). -/
theorem run_of_plan_empty (cfg : RunConfig) (fw : List String)
    (ts : List (Nat × Nat)) (src dst : Entity) (topicId : Option Nat)
    (hs : cfg.sourceResolve = some src) (hd : cfg.destResolve = some dst)
    (htop : resolveTopicStage src cfg.topicResolve cfg.topicName = some topicId)
    (hplan : (filterHistory cfg.filesOnly cfg.history).filter
      (shouldInclude src.id fw (lookupTs ts src.id)) = []) :
    (forward_messages_from_chat cfg fw ts).retVal = 0 ∧
      (forward_messages_from_chat cfg fw ts).trace = [] := by
  rw [run_resolved_eq cfg fw ts src dst topicId hs hd htop]
  by_cases hF : filterHistory cfg.filesOnly cfg.history = []
  · rw [if_pos hF]
    exact ⟨rfl, rfl⟩
  · rw [if_neg hF, if_pos hplan]
    exact ⟨rfl, rfl⟩

/-- C3: in a resolved run, a fresh planned message whose send raises a
non-rate-limit error is skipped: its unique id is neither in the final
in-memory forwarded set nor among the lines appended to the ledger; every
other planned message with a send kind and a succeeding environment is still
delivered (its send event appears in the trace) and recorded (its unique id
is in the final forwarded set); and the run still completes, writing the
run-start instant as the chat's watermark. -/
theorem C3_partial_failure_continuation (cfg : RunConfig) (fw : List String)
    (ts : List (Nat × Nat)) (src dst : Entity) (topicId : Option Nat)
    (m0 : Message)
    (hs : cfg.sourceResolve = some src) (hd : cfg.destResolve = some dst)
    (htop : resolveTopicStage src cfg.topicResolve cfg.topicName = some topicId)
    (hm0 : m0 ∈ syncPlan src.id cfg.filesOnly fw (lookupTs ts src.id)
      cfg.history)
    (hkind : sendKind m0 ≠ none)
    (hfatal : isOkOutcome (cfg.env m0.id) = false)
    (hfresh : uniqueId src.id m0.id ∉ fw)
    (huniq : ∀ m, m ∈ syncPlan src.id cfg.filesOnly fw (lookupTs ts src.id)
        cfg.history →
      uniqueId src.id m.id = uniqueId src.id m0.id → m = m0) :
    uniqueId src.id m0.id ∉ (forward_messages_from_chat cfg fw ts).forwarded
    ∧ uniqueId src.id m0.id ∉
        (forward_messages_from_chat cfg fw ts).ledgerAppends
    ∧ (∀ m k, m ∈ syncPlan src.id cfg.filesOnly fw (lookupTs ts src.id)
          cfg.history →
        sendKind m = some k → isOkOutcome (cfg.env m.id) = true →
        sendEvent dst.id topicId m k ∈
            (forward_messages_from_chat cfg fw ts).trace
          ∧ uniqueId src.id m.id ∈
              (forward_messages_from_chat cfg fw ts).forwarded)
    ∧ (forward_messages_from_chat cfg fw ts).savedTimestamps =
        some (setTs ts src.id cfg.now) := by
  have hm0f : msgSucceeds cfg.env m0 = false := by
    cases hsk : sendKind m0 with
    | none => exact absurd hsk hkind
    | some k => simp [msgSucceeds, hsk, hfatal]
  have hFne : filterHistory cfg.filesOnly cfg.history ≠ [] := by
    intro h
    rw [syncPlan, h] at hm0
    simp at hm0
  have hpne : (filterHistory cfg.filesOnly cfg.history).filter
      (shouldInclude src.id fw (lookupTs ts src.id)) ≠ [] := by
    intro h
    rw [syncPlan, h] at hm0
    simp at hm0
  rw [run_resolved_eq cfg fw ts src dst topicId hs hd htop, if_neg hFne,
    if_neg hpne]
  dsimp only [loopRunResult]
  refine ⟨?_, ?_, ?_, rfl⟩
  · intro hmem
    rcases deliveryLoop_forwarded_origin src.id dst.id topicId cfg.env _ _ _
      hmem with h | ⟨m, hm, heq, hsucc2⟩
    · exact hfresh h
    · have hmm : m = m0 := huniq m hm heq.symm
      subst hmm
      rw [hm0f] at hsucc2
      cases hsucc2
  · intro hmem
    rcases deliveryLoop_appends_origin src.id dst.id topicId cfg.env _ _ _
      hmem with h | ⟨m, hm, heq, hsucc2⟩
    · exact absurd h (List.not_mem_nil _)
    · have hmm : m = m0 := huniq m hm heq.symm
      subst hmm
      rw [hm0f] at hsucc2
      cases hsucc2
  · intro m k hm hsk hok
    constructor
    · exact deliveryLoop_send_of_mem src.id dst.id topicId cfg.env m k hsk _ _
        hm hok
    · refine deliveryLoop_forwarded_of_mem src.id dst.id topicId cfg.env m _ _
        hm ?_
      simp [msgSucceeds, hsk, hok]

/-- C3 witness: in the concrete plan `m1,m2,m3` whose second send raises a
non-rate-limit error, messages 1 and 3 are delivered and recorded, message 2
is absent from the ledger, and the watermark is updated. -/
theorem C3_partial_failure_continuation_witness :
    uniqueId 10 2 ∉ (forward_messages_from_chat
        (baseCfg threeNewestFirst secondFatalEnv) [] []).forwarded
    ∧ Event.sendMessage 20 1 "m1" none ∈ (forward_messages_from_chat
        (baseCfg threeNewestFirst secondFatalEnv) [] []).trace
    ∧ Event.sendMessage 20 3 "m3" none ∈ (forward_messages_from_chat
        (baseCfg threeNewestFirst secondFatalEnv) [] []).trace
    ∧ uniqueId 10 1 ∈ (forward_messages_from_chat
        (baseCfg threeNewestFirst secondFatalEnv) [] []).forwarded
    ∧ (forward_messages_from_chat
        (baseCfg threeNewestFirst secondFatalEnv) [] []).savedTimestamps =
      some [(10, 100)] := by
  have h := C3_partial_failure_continuation
    (baseCfg threeNewestFirst secondFatalEnv) [] [] srcEnt dstEnt none
    (textMsg 2 "m2") rfl rfl rfl (by decide) (by decide) rfl (by decide)
    (by decide)
  have h1 := h.2.2.1 (textMsg 1 "m1") SendKind.message (by decide) rfl rfl
  have h3 := h.2.2.1 (textMsg 3 "m3") SendKind.message (by decide) rfl rfl
  exact ⟨h.1, h1.1, h3.1, h1.2, h.2.2.2⟩

/-- C8: a planned record carrying neither non-webpage media nor text is still
recorded even though nothing is sent for it: its unique id joins the final
in-memory forwarded set, is appended to the ledger when new, its try body
counts as completed so it contributes to the returned session total (the
return value counts exactly the planned records whose try body completed),
and with its id in the forwarded set it can only ever be re-planned as
edited — re-qualification requires an edit timestamp strictly above the
watermark — never as new. -/
theorem C8_degenerate_still_recorded (cfg : RunConfig) (fw : List String)
    (ts : List (Nat × Nat)) (src dst : Entity) (topicId : Option Nat)
    (m0 : Message)
    (hs : cfg.sourceResolve = some src) (hd : cfg.destResolve = some dst)
    (htop : resolveTopicStage src cfg.topicResolve cfg.topicName = some topicId)
    (hm0 : m0 ∈ syncPlan src.id cfg.filesOnly fw (lookupTs ts src.id)
      cfg.history)
    (hmedia : m0.media = none ∨ m0.media = some Media.webPage)
    (htext : m0.text = "")
    (huniq : ∀ m, m ∈ syncPlan src.id cfg.filesOnly fw (lookupTs ts src.id)
        cfg.history →
      uniqueId src.id m.id = uniqueId src.id m0.id → m = m0) :
    uniqueId src.id m0.id ∈ (forward_messages_from_chat cfg fw ts).forwarded
    ∧ (uniqueId src.id m0.id ∉ fw → uniqueId src.id m0.id ∈
        (forward_messages_from_chat cfg fw ts).ledgerAppends)
    ∧ (forward_messages_from_chat cfg fw ts).retVal =
        (syncPlan src.id cfg.filesOnly fw (lookupTs ts src.id)
          cfg.history).countP (msgSucceeds cfg.env)
    ∧ msgSucceeds cfg.env m0 = true
    ∧ (∀ wm, shouldInclude src.id
          (forward_messages_from_chat cfg fw ts).forwarded wm m0 = true →
        ∃ e, m0.editDate = some e ∧ wm < e) := by
  have hsk : sendKind m0 = none := sendKind_none_of_degenerate m0 hmedia htext
  have hsucc : msgSucceeds cfg.env m0 = true := by simp [msgSucceeds, hsk]
  have hFne : filterHistory cfg.filesOnly cfg.history ≠ [] := by
    intro h
    rw [syncPlan, h] at hm0
    simp at hm0
  have hpne : (filterHistory cfg.filesOnly cfg.history).filter
      (shouldInclude src.id fw (lookupTs ts src.id)) ≠ [] := by
    intro h
    rw [syncPlan, h] at hm0
    simp at hm0
  rw [run_resolved_eq cfg fw ts src dst topicId hs hd htop, if_neg hFne,
    if_neg hpne]
  dsimp only [loopRunResult]
  have hfwd : uniqueId src.id m0.id ∈ (deliveryLoop src.id dst.id topicId
      cfg.env ((filterHistory cfg.filesOnly cfg.history).filter
        (shouldInclude src.id fw (lookupTs ts src.id))).reverse
      { forwarded := fw, ledgerAppends := [], count := 0,
        trace := [] }).forwarded :=
    deliveryLoop_forwarded_of_mem src.id dst.id topicId cfg.env m0 _ _ hm0
      hsucc
  refine ⟨hfwd, ?_, ?_, hsucc, ?_⟩
  · intro hfresh
    exact deliveryLoop_appends_of_fresh src.id dst.id topicId cfg.env m0 _ _
      hm0 hsucc hfresh huniq
  · rw [deliveryLoop_count src.id dst.id topicId cfg.env]
    exact Nat.zero_add _
  · intro wm hincl
    rcases (shouldInclude_iff src.id _ wm m0).mp hincl with hnm | hex
    · exact absurd hfwd hnm
    · exact hex

/-- C8 witness: a run over a single degenerate record returns 1, and its
unique id is both in the in-memory forwarded set and appended to the
ledger. -/
theorem C8_degenerate_still_recorded_witness :
    uniqueId 10 7 ∈ (forward_messages_from_chat (baseCfg [emptyMsg] allOkEnv)
        [] []).forwarded
    ∧ uniqueId 10 7 ∈ (forward_messages_from_chat
        (baseCfg [emptyMsg] allOkEnv) [] []).ledgerAppends
    ∧ (forward_messages_from_chat (baseCfg [emptyMsg] allOkEnv) [] []).retVal
        = 1 := by
  have h := C8_degenerate_still_recorded (baseCfg [emptyMsg] allOkEnv) [] []
    srcEnt dstEnt none emptyMsg rfl rfl rfl (by decide) (Or.inl rfl) rfl
    (by decide)
  refine ⟨h.1, h.2.1 (by decide), ?_⟩
  rw [h.2.2.1]
  decide

/-- C1 counterexample: the first run completes (it writes the watermark) but
its only send raises a non-rate-limit error, so the message is not recorded;
a second run over the unchanged history (no new messages, no edits) then
delivers that message — it returns 1, not 0, and issues a send — refuting the
claim for runs containing a failed send. -/
theorem C1_dedup_idempotence_cex :
    (forward_messages_from_chat (baseCfg [textMsg 1 "a"] allFatalEnv)
        [] []).savedTimestamps = some [(10, 100)]
    ∧ (secondRun (baseCfg [textMsg 1 "a"] allFatalEnv) allOkEnv 200 []
        []).retVal = 1
    ∧ Event.sendMessage 20 1 "a" none ∈
        (secondRun (baseCfg [textMsg 1 "a"] allFatalEnv) allOkEnv 200 []
          []).trace := by
  decide

/-- C1 (amended): if the first run completes with every attempted send
eventually succeeding (no non-rate-limit send error), then a second run from
the state the first run left behind, over the unchanged source history (no
new messages and no edits after the first run's start instant), delivers zero
messages — its trace is empty, so no send_file or send_message call is
made — and returns 0. -/
theorem C1_dedup_idempotence_amended (cfg : RunConfig) (fw : List String)
    (ts : List (Nat × Nat)) (env2 : Nat → SendOutcome) (now2 : Nat)
    (src dst : Entity) (topicId : Option Nat)
    (hs : cfg.sourceResolve = some src) (hd : cfg.destResolve = some dst)
    (htop : resolveTopicStage src cfg.topicResolve cfg.topicName = some topicId)
    (hedit : ∀ m, m ∈ cfg.history → m.editDate.getD 0 ≤ cfg.now)
    (hok : ∀ m, m ∈ syncPlan src.id cfg.filesOnly fw (lookupTs ts src.id)
        cfg.history →
      sendKind m ≠ none → isOkOutcome (cfg.env m.id) = true) :
    (secondRun cfg env2 now2 fw ts).retVal = 0 ∧
      (secondRun cfg env2 now2 fw ts).trace = [] := by
  have hedit2 : ∀ m, m ∈ filterHistory cfg.filesOnly cfg.history →
      ∀ e, m.editDate = some e → e ≤ cfg.now := by
    intro m hm e he
    have h2 := hedit m (filterHistory_subset cfg.filesOnly cfg.history m hm)
    rw [he] at h2
    exact h2
  have hsucc : ∀ m, m ∈ ((filterHistory cfg.filesOnly cfg.history).filter
      (shouldInclude src.id fw (lookupTs ts src.id))) →
      msgSucceeds cfg.env m = true := by
    intro m hm
    cases hk : sendKind m with
    | none => simp [msgSucceeds, hk]
    | some k =>
      have hmem2 : m ∈ syncPlan src.id cfg.filesOnly fw (lookupTs ts src.id)
          cfg.history := List.mem_reverse.mpr hm
      have h3 := hok m hmem2 (by rw [hk]; intro hcc; cases hcc)
      simp [msgSucceeds, hk, h3]
  simp only [secondRun]
  rw [run_resolved_eq cfg fw ts src dst topicId hs hd htop]
  by_cases hF : filterHistory cfg.filesOnly cfg.history = []
  · rw [if_pos hF]
    refine run_of_plan_empty { cfg with env := env2, now := now2 } _ _ src dst
      topicId hs hd htop ?_
    show (filterHistory cfg.filesOnly cfg.history).filter
        (shouldInclude src.id fw (lookupTs ts src.id)) = []
    rw [hF]
    rfl
  · rw [if_neg hF]
    by_cases hplan : (filterHistory cfg.filesOnly cfg.history).filter
        (shouldInclude src.id fw (lookupTs ts src.id)) = []
    · rw [if_pos hplan]
      refine run_of_plan_empty { cfg with env := env2, now := now2 } _ _ src
        dst topicId hs hd htop ?_
      show (filterHistory cfg.filesOnly cfg.history).filter
          (shouldInclude src.id fw
            (lookupTs (setTs ts src.id cfg.now) src.id)) = []
      rw [lookupTs_setTs]
      exact plan_filter_empty src.id fw fw (lookupTs ts src.id) cfg.now _
        (fun x hx => hx)
        (fun m hm hinc => absurd hinc (List.filter_eq_nil_iff.mp hplan m hm))
        hedit2
    · rw [if_neg hplan]
      refine run_of_plan_empty { cfg with env := env2, now := now2 } _ _ src
        dst topicId hs hd htop ?_
      show (filterHistory cfg.filesOnly cfg.history).filter
          (shouldInclude src.id
            (deliveryLoop src.id dst.id topicId cfg.env
              ((filterHistory cfg.filesOnly cfg.history).filter
                (shouldInclude src.id fw (lookupTs ts src.id))).reverse
              { forwarded := fw, ledgerAppends := [], count := 0,
                trace := [] }).forwarded
            (lookupTs (setTs ts src.id cfg.now) src.id)) = []
      rw [lookupTs_setTs]
      refine plan_filter_empty src.id fw _ (lookupTs ts src.id) cfg.now _
        (fun x hx => deliveryLoop_forwarded_mono src.id dst.id topicId cfg.env
          x _ _ hx)
        (fun m hm hinc => deliveryLoop_forwarded_of_mem src.id dst.id topicId
          cfg.env m _ _
          (List.mem_reverse.mpr (List.mem_filter.mpr ⟨hm, hinc⟩))
          (hsucc m (List.mem_filter.mpr ⟨hm, hinc⟩)))
        hedit2

/-- C1 witness: a happy first run over one fresh message leaves a state from
which the second run (over the unchanged history) returns 0 with an empty
trace. -/
theorem C1_dedup_idempotence_amended_witness :
    (secondRun (baseCfg [textMsg 1 "a"] allOkEnv) allOkEnv 200 [] []).retVal
        = 0
    ∧ (secondRun (baseCfg [textMsg 1 "a"] allOkEnv) allOkEnv 200 []
        []).trace = [] :=
  C1_dedup_idempotence_amended (baseCfg [textMsg 1 "a"] allOkEnv) [] []
    allOkEnv 200 srcEnt dstEnt none rfl rfl rfl (by decide) (by decide)

end TelegramForward
